import Mathlib

/-!
Verification of the github-sync synchronization-check engine
(`github_sync.py`) against its specification.

The Python source is shallowly embedded: pure string manipulation becomes
Lean functions on `List Char` / `String`; the process-wide state touched by
the program (current working directory, the on-disk cache file, the clock,
the network and the external `git` tool) is made explicit as record types
that are threaded through the functions.  Machine floats do not occur in
the verified fragment: every timestamp the program computes on the cache
path is produced by `calendar.timegm`, which yields an exact integer, so
timestamps are modelled as `Int`.
-/

set_option maxRecDepth 10000

/-! ## Character classes

Python `\w` and `\d` are modelled for ASCII text (all inputs relevant to
the claims are ASCII; Python would additionally accept some non-ASCII
word characters, which no claim exercises). -/

/-- ASCII model of the Python regex class `\w`: letters, digits, underscore. -/
def isWordChar (c : Char) : Bool :=
  decide (97 ≤ c.toNat ∧ c.toNat ≤ 122) ||   -- a-z
  decide (65 ≤ c.toNat ∧ c.toNat ≤ 90)  ||   -- A-Z
  decide (48 ≤ c.toNat ∧ c.toNat ≤ 57)  ||   -- 0-9
  decide (c.toNat = 95)                      -- underscore

/-- ASCII model of the Python regex class `\d`. -/
def isDig (c : Char) : Bool :=
  decide (48 ≤ c.toNat ∧ c.toNat ≤ 57)

/-- Numeric value of an ASCII digit character. -/
def digitVal (c : Char) : Nat := c.toNat - 48

/-- The ASCII digit character for a value below ten. -/
def digitChar (n : Nat) : Char := Char.ofNat (48 + n)

/-! ## Origin URL parsing (`GitRepository._parse_origin`)

The source matches the origin URL with
`re.match("(git@|https://)github\.com(:|/)(?P<username>\w+)/(?P<repository>\w+).git", origin)`.
Note three properties of this pattern, preserved faithfully below:
`re.match` anchors only at the start (trailing text is ignored), the final
dot before `git` is unescaped (it matches any character except a newline),
and the scheme and separator alternations are independent, so mixed forms
like `git@host/owner/repo.git` match.  A failed match makes the Python code
raise (`match.group` on `None`); failure is modelled as `none`. -/

/-- Consume an exact sequence of characters from the front of a list,
returning the remainder; `none` if the input does not start with it. -/
def stripPre : List Char → List Char → Option (List Char)
  | [], s => some s
  | _ :: _, [] => none
  | p :: ps, c :: cs => if c = p then stripPre ps cs else none

/-- The trailing regex `.git` (unescaped dot, so any character but a
newline, then the literal `git`); the overall match is a prefix match, so
anything may follow. -/
def matchDotGit : List Char → Bool
  | c :: 'g' :: 'i' :: 't' :: _ => decide (c ≠ '\n')
  | _ => false

/-- Backtracking of the greedy `(?P<repository>\w+)` against the trailing
`.git`: try the longest word-character run first, shrinking one character
at a time, exactly as the regex engine does. -/
def tryShrink (w rest : List Char) : Nat → Option (List Char)
  | 0 => none
  | k + 1 =>
    if matchDotGit (w.drop (k + 1) ++ rest) then some (w.take (k + 1))
    else tryShrink w rest k

/-- The `(?P<username>\w+)/(?P<repository>\w+).git` part of the pattern.
The username group is the maximal word-character run (a shorter run would
be followed by a word character, never by the required `/`, so the regex
backtracking of the regex engine cannot choose it). -/
def parseUserRepo (r3 : List Char) : Option (List Char × List Char) :=
  let u := r3.takeWhile isWordChar
  match r3.dropWhile isWordChar with
  | '/' :: r5 =>
    if u = [] then none
    else
      match tryShrink (r5.takeWhile isWordChar) (r5.dropWhile isWordChar)
          (r5.takeWhile isWordChar).length with
      | some rp => some (u, rp)
      | none => none
  | _ => none

/-- Model of `GitRepository._parse_origin` applied to the origin URL
character list: the anchored-at-start regex match described above.
`none` models the `AttributeError` the source raises when the regex does
not match (the specification calls this failure `UnrecognizedOrigin`). -/
def parse_origin_chars (s : List Char) : Option (List Char × List Char) :=
  let r1? : Option (List Char) :=
    match stripPre "git@".data s with
    | some r => some r
    | none => stripPre "https://".data s
  match r1? with
  | none => none
  | some r1 =>
    match stripPre "github.com".data r1 with
    | none => none
    | some r2 =>
      match r2 with
      | [] => none
      | sep :: r3 =>
        if sep = ':' ∨ sep = '/' then parseUserRepo r3 else none

/-- Model of `GitRepository._parse_origin`: username and repository
extracted from the origin URL, or `none` when the regex does not match. -/
def parse_origin (origin : String) : Option (String × String) :=
  match parse_origin_chars origin.data with
  | some (u, r) => some (⟨u⟩, ⟨r⟩)
  | none => none

/-- Model of `GitRepository.API_URL` as a function of the origin URL:
the commits URL format string applied to the username and repository. -/
def api_url_of (origin : String) : Option String :=
  match parse_origin origin with
  | none => none
  | some (u, r) =>
    some ("https://api.github.com/repos/" ++ u ++ "/" ++ r ++
      "/commits?page=1&per_page=1")

example : parse_origin "https://github.com/kennethreitz/requests.git" =
    some ("kennethreitz", "requests") := by decide

example : parse_origin "git@github.com:kennethreitz/requests.git" =
    some ("kennethreitz", "requests") := by decide

example : parse_origin "https://gitlab.com/x/y.git" = none := by decide

example : parse_origin "git@github.com/x/y.git" = some ("x", "y") := by decide

/-! ## Timestamp parsing (`time.strptime` + `calendar.timegm`)

The source converts the remote date string with
`time.strptime(date_str, "%Y-%m-%dT%H:%M:%SZ")` followed by
`calendar.timegm(date_struct)`.  CPython compiles the format to the regex
`\d\d\d\d - (1[0-2]|0[1-9]|[1-9]) - (3[01]|[12]\d|0[1-9]|[1-9]) T
(2[0-3]|[0-1]\d|\d) : ([0-5]\d|\d) : (6[0-1]|[0-5]\d|\d) Z`, requires the
whole string to be consumed, and then validates the date by constructing
`datetime.date(year, month, day)` (which also requires `year >= 1`).
Each alternation tries the two-digit alternative first; if it succeeds
the following literal separator is compared against a digit on the
one-digit fallback, which therefore never rescues a failed parse, so the
ordered alternation below is exactly the behaviour of the regex engine.
`calendar.timegm` computes an exact integer by calendar arithmetic. -/

/-- One field of the strptime pattern: a two-digit value accepted by
`valid2` (tried first, as in the compiled regex), else a one-digit value
accepted by `valid1`. -/
def parse2or1 (valid2 valid1 : Nat → Bool) : List Char → Option (Nat × List Char)
  | c1 :: c2 :: rest =>
    if isDig c1 && isDig c2 && valid2 (10 * digitVal c1 + digitVal c2) then
      some (10 * digitVal c1 + digitVal c2, rest)
    else if isDig c1 && valid1 (digitVal c1) then
      some (digitVal c1, c2 :: rest)
    else none
  | [c1] => if isDig c1 && valid1 (digitVal c1) then some (digitVal c1, []) else none
  | [] => none

/-- The `%Y` field: exactly four digits. -/
def parse4 : List Char → Option (Nat × List Char)
  | c1 :: c2 :: c3 :: c4 :: rest =>
    if isDig c1 && isDig c2 && isDig c3 && isDig c4 then
      some (1000 * digitVal c1 + 100 * digitVal c2 + 10 * digitVal c3 + digitVal c4, rest)
    else none
  | _ => none

/-- A required literal character of the format. -/
def expectChar (c : Char) : List Char → Option (List Char)
  | x :: xs => if x = c then some xs else none
  | [] => none

/-- Gregorian leap-year rule, as used by `datetime.date`. -/
def isLeapYear (y : Nat) : Bool :=
  y % 4 == 0 && (y % 100 != 0 || y % 400 == 0)

/-- Length of a month, as validated by `datetime.date(year, month, day)`. -/
def daysInMonth (y m : Nat) : Nat :=
  if m = 2 then (if isLeapYear y then 29 else 28)
  else if m = 4 ∨ m = 6 ∨ m = 9 ∨ m = 11 then 30
  else 31

/-- Cumulative days before the given month in a non-leap year. -/
def daysBeforeMonthTable : Nat → Nat
  | 1 => 0 | 2 => 31 | 3 => 59 | 4 => 90 | 5 => 120 | 6 => 151 | 7 => 181
  | 8 => 212 | 9 => 243 | 10 => 273 | 11 => 304 | 12 => 334 | _ => 0

/-- Days before the given month, with the leap-day adjustment. -/
def daysBeforeMonth (y m : Nat) : Nat :=
  daysBeforeMonthTable m + (if 2 < m && isLeapYear y then 1 else 0)

/-- `datetime.date(y, m, d).toordinal()`: proleptic Gregorian ordinal,
with day 1 of year 1 as ordinal 1. -/
def toordinal (y m d : Nat) : Nat :=
  365 * (y - 1) + (y - 1) / 4 - (y - 1) / 100 + (y - 1) / 400 +
    daysBeforeMonth y m + d

/-- `calendar.timegm`: seconds since the Unix epoch by exact integer
calendar arithmetic, following the library source
(`days = date(y, m, 1).toordinal() - EPOCH_ORD + day - 1`, then
hours, minutes, seconds are accumulated). -/
def timegm (y m d h mi s : Nat) : Int :=
  ((((toordinal y m 1 : Int) - (toordinal 1970 1 1 : Int) + (d : Int) - 1) * 24
    + (h : Int)) * 60 + (mi : Int)) * 60 + (s : Int)

/-- Model of the timestamp conversion in `get_last_github_commit`:
`calendar.timegm(time.strptime(date_str, "%Y-%m-%dT%H:%M:%SZ"))`.
`none` models the `ValueError` raised by `strptime` or by the
`datetime.date` validation (the specification calls this failure
`MalformedTimestamp`). -/
def parse_github_date (str : String) : Option Int :=
  match parse4 str.data with
  | none => none
  | some (y, r1) =>
  match expectChar '-' r1 with
  | none => none
  | some r2 =>
  match parse2or1 (fun v => decide (1 ≤ v ∧ v ≤ 12))
      (fun v => decide (1 ≤ v ∧ v ≤ 9)) r2 with
  | none => none
  | some (m, r3) =>
  match expectChar '-' r3 with
  | none => none
  | some r4 =>
  match parse2or1 (fun v => decide (1 ≤ v ∧ v ≤ 31))
      (fun v => decide (1 ≤ v ∧ v ≤ 9)) r4 with
  | none => none
  | some (d, r5) =>
  match expectChar 'T' r5 with
  | none => none
  | some r6 =>
  match parse2or1 (fun v => decide (v ≤ 23)) (fun _ => true) r6 with
  | none => none
  | some (h, r7) =>
  match expectChar ':' r7 with
  | none => none
  | some r8 =>
  match parse2or1 (fun v => decide (v ≤ 59)) (fun _ => true) r8 with
  | none => none
  | some (mi, r9) =>
  match expectChar ':' r9 with
  | none => none
  | some r10 =>
  match parse2or1 (fun v => decide (v ≤ 61)) (fun _ => true) r10 with
  | none => none
  | some (s, r11) =>
  match expectChar 'Z' r11 with
  | none => none
  | some r12 =>
  -- strptime requires the match to span the whole string
  if r12 ≠ [] then none
  -- the datetime.date(year, month, day) validation inside strptime
  else if y < 1 ∨ d > daysInMonth y m then none
  else some (timegm y m d h mi s)

example : parse_github_date "2014-10-23T12:18:13Z" = some 1414066693 := by decide
example : parse_github_date "2014-1-23T12:18:13Z" = some 1390479493 := by decide
example : parse_github_date "2014-10-23T12:18:13.5Z" = none := by decide
example : parse_github_date "2014-10-23T12:18:13+00:00" = none := by decide
example : parse_github_date "23-10-2014T12:18:13Z" = none := by decide
example : parse_github_date "2014-02-31T00:00:00Z" = none := by decide

/-! ## JSON values, the filesystem, and the process state

The cache file holds JSON; the remote API answers with JSON.  Numbers are
modelled as integers: every number the program itself writes is the exact
integer produced by `calendar.timegm`.  A file is its parsed JSON content
together with its modification time; `none` for a path models both a
missing file and an OS-level stat error (`up_to_date` catches `OSError`
for either).  The process-wide current working directory mutated by
`tmp_chdir` is explicit state. -/

/-- A JSON value, as stored in the cache file or returned by the API. -/
inductive JSON where
  | null : JSON
  | bool (b : Bool) : JSON
  | num (n : Int) : JSON
  | str (s : String) : JSON
  | arr (xs : List JSON) : JSON
  | obj (kvs : List (String × JSON)) : JSON

/-- Content and modification time of one on-disk file. -/
structure FileData where
  mtime : Int
  content : JSON

/-- The mutable state the program touches: the process working directory
and the filesystem. -/
structure St where
  cwd : String
  files : String → Option FileData

/-- The read-only environment: the clock, the external command runner
(raw first line of standard output, `none` for a non-zero exit status)
and the HTTP client (parsed JSON body for a URL, `none` when the body is
not valid JSON). -/
structure Env where
  now : Int
  runner : String → List String → Option String
  http : String → Option JSON

/-- Observable effects performed by `get_last_github_commit`, in order. -/
inductive Event where
  | procRun (args : List String) : Event
  | httpGet (url : String) : Event
  | fileWrite (path : String) (content : JSON) : Event

/-! ## `tmp_chdir` and `GitRepository.check_output` -/

/-- Model of the `tmp_chdir` context manager: remember the working
directory, change to `path`, run the body, and restore the saved
directory.  The `finally` clause restores it on every exit path, so the
restore applies to failing bodies (`none`-valued results) as well. -/
def tmp_chdir {α : Type} (path : String) (body : St → α × St) (s : St) : α × St :=
  let cwd := s.cwd
  let (a, s1) := body { s with cwd := path }
  (a, { s1 with cwd := cwd })

/-- Python `str.strip` whitespace (ASCII subset). -/
def isPySpace (c : Char) : Bool :=
  c = ' ' || c = '\t' || c = '\n' || c = '\r' || c = '\x0b' || c = '\x0c'

/-- First line of the captured output (`fd.readline()` without the
terminating newline) with surrounding whitespace removed (`.strip()`). -/
def stripOut (raw : String) : String :=
  ⟨(((raw.data.takeWhile (fun c => c ≠ '\n')).dropWhile isPySpace).reverse.dropWhile
      isPySpace).reverse⟩

/-- Model of `GitRepository.check_output`: inside `tmp_chdir(self.path)`,
run the command in the current working directory, and return the first
line of its output stripped; `none` models `CalledProcessError` on a
non-zero exit status. -/
def check_output (runner : String → List String → Option String) (path : String)
    (args : List String) (s : St) : Option String × St :=
  tmp_chdir path (fun s1 => ((runner s1.cwd args).map stripOut, s1)) s

/-! ## `FileCache` -/

/-- `os.path.join` for the cases that occur here (second component is a
plain file name or an absolute path). -/
def os_path_join (a b : String) : String :=
  if b.data.head? = some '/' then b
  else if a = "" ∨ a.data.getLast? = some '/' then a ++ b
  else a ++ "/" ++ b

/-- `GitRepository.CACHE_FILE_FILENAME`. -/
def CACHE_FILE_FILENAME : String := ".github-last-commit-cache.json"

/-- `GitRepository.cache_path`: the cache file inside the repository. -/
def cache_path (repoPath : String) : String :=
  os_path_join repoPath CACHE_FILE_FILENAME

/-- Model of `FileCache.up_to_date`: true when the file was last modified
at most `max_hours * 3600` seconds ago; a missing file or a stat error
(`OSError`, modelled as `none`) yields `False` rather than an exception. -/
def up_to_date (files : String → Option FileData) (now : Int) (path : String)
    (max_hours : Int) : Bool :=
  match files path with
  | some fd => decide (now - fd.mtime ≤ max_hours * 3600)
  | none => false

/-- Model of `FileCache.get`: the parsed JSON contents of the file
(`none` when the file cannot be read). -/
def cache_get (files : String → Option FileData) (path : String) : Option JSON :=
  (files path).map FileData.content

/-- Model of `FileCache.set`: serialize the value and overwrite the file,
stamping the current time as its modification time. -/
def cache_set (s : St) (now : Int) (path : String) (v : JSON) : St :=
  { s with files := fun p => if p = path then some ⟨now, v⟩ else s.files p }

/-! ## `GitRepository.get_last_github_commit` -/

/-- Dictionary access `entry[key]` on a parsed JSON object; `none` models
`KeyError`/`TypeError`. -/
def jGet : JSON → String → Option JSON
  | .obj kvs, key => jLookup kvs key
  | _, _ => none
where
  jLookup : List (String × JSON) → String → Option JSON
    | [], _ => none
    | (k, v) :: rest, key => if k = key then some v else jLookup rest key

/-- The string carried by a JSON string value. -/
def JSON.asStr : JSON → Option String
  | .str s => some s
  | _ => none

/-- Extraction of the sha of `r.json()[0]` and of the date under its
commit.author entry, as in the source; `none`
models the `IndexError`/`KeyError`/`TypeError` raised when the body is
not a non-empty array of commit objects of the expected shape. -/
def extract_commit (body : JSON) : Option (String × String) :=
  match body with
  | .arr (entry :: _) => do
    let sha ← jGet entry "sha" >>= JSON.asStr
    let dateStr ← ((jGet entry "commit" >>= (jGet · "author")) >>= (jGet · "date"))
      >>= JSON.asStr
    pure (sha, dateStr)
  | _ => none

/-- The distinct failures of `get_last_github_commit` (each an uncaught
Python exception; the specification names for the first four are
`CorruptCache`, `CommandFailed`, `UnrecognizedOrigin` and
`MalformedTimestamp`; `protocol` covers a non-JSON body and a body
without the expected commit entry). -/
inductive SyncErr where
  | corruptCache : SyncErr
  | cmdFailed : SyncErr
  | badOrigin : SyncErr
  | badTimestamp : SyncErr
  | protocol : SyncErr

/-- What `get_last_github_commit` returns: on a fresh cache, the parsed
cache contents verbatim (a Python list or any other JSON value); on a
cache miss, the freshly fetched `(short_hash, date)` tuple. -/
inductive GitHubResult where
  | cached (v : JSON) : GitHubResult
  | fetched (shortHash : String) (date : Int) : GitHubResult

/-- The argument list of the git config query for the origin URL. -/
def originArgs : List String := ["git", "config", "--get", "remote.origin.url"]

/-- Model of `GitRepository.get_last_github_commit`.  Returns the result
(or the uncaught exception), the final state, and the ordered list of
observable effects.  On a fresh cache the parsed cache file is returned
with no further effect; otherwise the origin URL is read via `git
config` (evaluating `self.API_URL` inside the `requests.get` call), the
API is queried, the hash and date of the first entry are extracted, the date
is converted, the short hash is resolved via `git rev-parse`, and the
pair is written to the cache before it is returned. -/
def get_last_github_commit (env : Env) (repoPath : String) (max_hours : Int)
    (s : St) : Except SyncErr GitHubResult × St × List Event :=
  let cachePath := cache_path repoPath
  if up_to_date s.files env.now cachePath max_hours then
    match cache_get s.files cachePath with
    | some v => (.ok (.cached v), s, [])
    | none => (.error .corruptCache, s, [])
  else
    let (oOrigin, s1) := check_output env.runner repoPath originArgs s
    match oOrigin with
    | none => (.error .cmdFailed, s1, [.procRun originArgs])
    | some origin =>
      match api_url_of origin with
      | none => (.error .badOrigin, s1, [.procRun originArgs])
      | some url =>
        match env.http url with
        | none => (.error .protocol, s1, [.procRun originArgs, .httpGet url])
        | some body =>
          match extract_commit body with
          | none => (.error .protocol, s1, [.procRun originArgs, .httpGet url])
          | some (hash_, dateStr) =>
            match parse_github_date dateStr with
            | none => (.error .badTimestamp, s1, [.procRun originArgs, .httpGet url])
            | some date_ =>
              let rpArgs := ["git", "rev-parse", "--short", hash_]
              let (oShort, s2) := check_output env.runner repoPath rpArgs s1
              match oShort with
              | none =>
                (.error .cmdFailed, s2,
                  [.procRun originArgs, .httpGet url, .procRun rpArgs])
              | some shortHash =>
                let content : JSON := .arr [.str shortHash, .num date_]
                (.ok (.fetched shortHash date_),
                  cache_set s2 env.now cachePath content,
                  [.procRun originArgs, .httpGet url, .procRun rpArgs,
                    .fileWrite cachePath content])

/-! ## Helper lemmas -/

/-- `tmp_chdir` restores the saved working directory and leaves the
filesystem to the body. -/
theorem tmp_chdir_spec {α : Type} (path : String) (body : St → α × St) (s : St) :
    tmp_chdir path body s =
      ((body { s with cwd := path }).1,
        { (body { s with cwd := path }).2 with cwd := s.cwd }) := rfl

/-- `check_output` computes the stripped first line of the command output
taken in the repository directory, and returns the state unchanged. -/
theorem check_output_eq (runner : String → List String → Option String)
    (path : String) (args : List String) (s : St) :
    check_output runner path args s = ((runner path args).map stripOut, s) := by
  cases s
  rfl

/-! ## Claim C6: totality and characterization of the freshness check -/

/-- C6: the freshness check `FileCache.up_to_date` returns `true` exactly
when the cache file exists and `now - mtime <= max_hours * 3600`; it is a
total function, and for a missing file or a stat error (both modelled as
`none`) it returns `false` rather than raising. -/
theorem up_to_date_iff_fresh (files : String → Option FileData) (now : Int)
    (path : String) (max_hours : Int) :
    (up_to_date files now path max_hours = true ↔
      ∃ fd, files path = some fd ∧ now - fd.mtime ≤ max_hours * 3600)
    ∧ (files path = none → up_to_date files now path max_hours = false) := by
  cases h : files path <;> simp [up_to_date, h]

/-! ## Claim C7: cache write followed by read -/

/-- C7: writing the `(short_hash, timestamp)` pair to the cache and
immediately reading it back yields exactly the written pair, for every
prior state of the filesystem: the write is a complete overwrite and
never merges with previous contents. -/
theorem cache_set_then_get (s : St) (now : Int) (path : String)
    (shortHash : String) (t : Int) :
    cache_get (cache_set s now path (.arr [.str shortHash, .num t])).files path =
      some (.arr [.str shortHash, .num t])
    ∧ (cache_set s now path (.arr [.str shortHash, .num t])).files path =
      some ⟨now, .arr [.str shortHash, .num t]⟩ := by
  constructor <;> simp [cache_get, cache_set]

/-! ## Claim C8: the process runner does not leak state -/

/-- C8: `GitRepository.check_output` leaves the process working directory
(and the whole state) unchanged on every exit path — both when the
command succeeds, in which case the first line of its output with
surrounding whitespace stripped is returned, and when it exits non-zero
(`CalledProcessError`, modelled as `none`): the `finally` clause of
`tmp_chdir` restores the saved directory unconditionally. -/
theorem check_output_preserves_cwd (runner : String → List String → Option String)
    (path : String) (args : List String) (s : St) :
    (check_output runner path args s).2.cwd = s.cwd
    ∧ (check_output runner path args s).2 = s
    ∧ (check_output runner path args s).1 = (runner path args).map stripOut := by
  rw [check_output_eq]
  exact ⟨rfl, rfl, rfl⟩

/-! ## Claim C2: a fresh cache short-circuits everything -/

/-- C2: whenever the freshness check succeeds, `get_last_github_commit`
returns the cached contents, leaves the state untouched, and performs no
observable effect at all — no HTTP request, no `git` invocation (in
particular no `rev-parse`), and no cache write. -/
theorem fresh_cache_short_circuits (env : Env) (repoPath : String) (max_hours : Int)
    (s : St) (h : up_to_date s.files env.now (cache_path repoPath) max_hours = true) :
    ∃ fd, s.files (cache_path repoPath) = some fd ∧
      get_last_github_commit env repoPath max_hours s =
        (.ok (.cached fd.content), s, []) := by
  cases hf : s.files (cache_path repoPath) with
  | none => simp [up_to_date, hf] at h
  | some fd =>
    exact ⟨fd, rfl, by simp [get_last_github_commit, h, cache_get, hf]⟩

/-- A concrete repository state: cache file present, written at time 0,
holding the pair `["51277fc", 1414066693]`. -/
def wStFresh : St :=
  ⟨"/", fun p => if p = cache_path "/repo" then
    some ⟨0, .arr [.str "51277fc", .num 1414066693]⟩ else none⟩

/-- A concrete environment whose clock reads 1800 seconds (30 minutes)
after the cache write and whose network and command runner always fail:
any attempted effect on the hit path would be visible as an error or in
the event list. -/
def wEnvFresh : Env := ⟨1800, fun _ _ => none, fun _ => none⟩

/-- Witness for C2: 30-minute-old cache, `max_hours = 1`: the cached pair
comes back with no effect. -/
theorem fresh_cache_short_circuits_witness :
    up_to_date wStFresh.files wEnvFresh.now (cache_path "/repo") 1 = true ∧
    ∃ fd, wStFresh.files (cache_path "/repo") = some fd ∧
      get_last_github_commit wEnvFresh "/repo" 1 wStFresh =
        (.ok (.cached fd.content), wStFresh, []) :=
  ⟨by decide, fresh_cache_short_circuits wEnvFresh "/repo" 1 wStFresh (by decide)⟩

/-! ## Claim C9: the hit path returns the cache contents unvalidated -/

/-- C9: when the cache file is fresh, `get_last_github_commit` returns
whatever JSON value the file holds, verbatim: no validation of its shape
is performed (the value need not be a two-element `[string, number]`
array). -/
theorem fresh_cache_returns_verbatim (env : Env) (repoPath : String)
    (max_hours : Int) (s : St) (fd : FileData)
    (hf : s.files (cache_path repoPath) = some fd)
    (ht : env.now - fd.mtime ≤ max_hours * 3600) :
    (get_last_github_commit env repoPath max_hours s).1 = .ok (.cached fd.content) := by
  have h : up_to_date s.files env.now (cache_path repoPath) max_hours = true := by
    simp [up_to_date, hf, ht]
  simp [get_last_github_commit, h, cache_get, hf]

/-- A repository state whose fresh cache file holds a JSON value that is
not a `[string, number]` pair at all. -/
def wStOdd : St :=
  ⟨"/", fun p => if p = cache_path "/repo" then
    some ⟨0, .obj [("unexpected", .null)]⟩ else none⟩

/-- Witness for C9: a fresh cache holding a one-field JSON object — not a
two-element array — is returned to the caller as-is. -/
theorem fresh_cache_returns_verbatim_witness :
    wStOdd.files (cache_path "/repo") = some ⟨0, .obj [("unexpected", .null)]⟩ ∧
    (get_last_github_commit wEnvFresh "/repo" 1 wStOdd).1 =
      .ok (.cached (.obj [("unexpected", .null)])) :=
  ⟨rfl, fresh_cache_returns_verbatim wEnvFresh "/repo" 1 wStOdd
    ⟨0, .obj [("unexpected", .null)]⟩ rfl (by decide)⟩

/-! ## Lemmas about the origin parser -/

/-- Consuming a literal prefix that is present succeeds with the rest. -/
theorem stripPre_append (p r : List Char) : stripPre p (p ++ r) = some r := by
  induction p with
  | nil => rfl
  | cons c cs ih => simp [stripPre, ih]

/-- `stripPre` succeeds exactly on inputs that start with the pattern. -/
theorem stripPre_some_iff (p : List Char) : ∀ s r : List Char,
    stripPre p s = some r ↔ s = p ++ r := by
  induction p with
  | nil => intro s r; simp [stripPre]
  | cons c cs ih =>
    intro s r
    cases s with
    | nil => simp [stripPre]
    | cons d ds =>
      by_cases h : d = c
      · subst h; simp [stripPre, ih]
      · simp [stripPre, h]

/-- The word-character run of a list built as a word-character block
followed by a non-word character: `takeWhile` returns the block and
`dropWhile` the rest. -/
theorem takeWhile_dropWhile_append (p : Char → Bool) (xs : List Char) (y : Char)
    (ys : List Char) (hxs : ∀ c ∈ xs, p c = true) (hy : p y = false) :
    (xs ++ y :: ys).takeWhile p = xs ∧ (xs ++ y :: ys).dropWhile p = y :: ys := by
  induction xs with
  | nil => simp [List.takeWhile_cons, List.dropWhile_cons, hy]
  | cons c cs ih =>
    have hc : p c = true := hxs c (by simp)
    have ihh := ih (fun d hd => hxs d (by simp [hd]))
    simp [List.takeWhile_cons, List.dropWhile_cons, hc, ihh.1, ihh.2]

/-- When the remainder itself matches `.git`, the greedy repository run
is kept whole: the longest-first backtracking succeeds at once. -/
theorem tryShrink_full (w rest : List Char) (hw : w ≠ [])
    (h : matchDotGit rest = true) : tryShrink w rest w.length = some w := by
  cases w with
  | nil => exact absurd rfl hw
  | cons c cs =>
    have h1 : (c :: cs).drop (cs.length + 1) = [] := by
      simp
    have h2 : (c :: cs).take (cs.length + 1) = c :: cs := by
      simp
    show tryShrink (c :: cs) rest (cs.length + 1) = some (c :: cs)
    simp [tryShrink, h1, h2, h]

/-- The username/repository part of the regex on an input of the shape
`user / repo ⟨non-word⟩ rest`: both groups are extracted exactly. -/
theorem parseUserRepo_eq (u w rs : List Char) (r0 : Char) (hu : u ≠ [])
    (hu2 : ∀ c ∈ u, isWordChar c = true) (hw : w ≠ [])
    (hw2 : ∀ c ∈ w, isWordChar c = true) (hr0 : isWordChar r0 = false)
    (hm : matchDotGit (r0 :: rs) = true) :
    parseUserRepo (u ++ '/' :: (w ++ r0 :: rs)) = some (u, w) := by
  have hspan1 := takeWhile_dropWhile_append isWordChar u '/' (w ++ r0 :: rs) hu2
    (by decide)
  have hspan2 := takeWhile_dropWhile_append isWordChar w r0 rs hw2 hr0
  simp [parseUserRepo, hspan1.1, hspan1.2, hspan2.1, hspan2.2, hu,
    tryShrink_full w (r0 :: rs) hw hm]

/-- The fixed leading part of the pattern in its ssh shape is consumed
definitionally. -/
theorem parse_origin_chars_ssh (Y : List Char) :
    parse_origin_chars ("git@github.com:".data ++ Y) = parseUserRepo Y := rfl

/-- The fixed leading part of the pattern in its https shape is consumed
definitionally. -/
theorem parse_origin_chars_https (Y : List Char) :
    parse_origin_chars ("https://github.com/".data ++ Y) = parseUserRepo Y := rfl

/-! ## Claim C3: both recognized origin forms parse exactly -/

/-- C3: for every owner and repository name made of word characters, both
recognized origin forms — `git@github.com:owner/repo.git` and
`https://github.com/owner/repo.git` — parse to exactly `(owner, repo)`,
and the derived API URL is
`https://api.github.com/repos/owner/repo/commits?page=1&per_page=1`. -/
theorem parse_origin_recognized_forms (owner repo : String)
    (ho1 : owner.data ≠ []) (ho2 : ∀ c ∈ owner.data, isWordChar c = true)
    (hr1 : repo.data ≠ []) (hr2 : ∀ c ∈ repo.data, isWordChar c = true) :
    parse_origin ("git@github.com:" ++ owner ++ "/" ++ repo ++ ".git") =
      some (owner, repo)
    ∧ parse_origin ("https://github.com/" ++ owner ++ "/" ++ repo ++ ".git") =
      some (owner, repo)
    ∧ api_url_of ("https://github.com/" ++ owner ++ "/" ++ repo ++ ".git") =
      some ("https://api.github.com/repos/" ++ owner ++ "/" ++ repo ++
        "/commits?page=1&per_page=1") := by
  have htail : parseUserRepo (owner.data ++ '/' :: (repo.data ++ '.' :: ['g', 'i', 't'])) =
      some (owner.data, repo.data) :=
    parseUserRepo_eq owner.data repo.data ['g', 'i', 't'] '.' ho1 ho2 hr1 hr2
      (by decide) (by decide)
  have hdata1 : ("git@github.com:" ++ owner ++ "/" ++ repo ++ ".git").data =
      "git@github.com:".data ++ (owner.data ++ '/' :: (repo.data ++ '.' :: ['g', 'i', 't'])) := by
    simp [String.data_append, show ("/" : String).data = ['/'] from rfl,
      show (".git" : String).data = ['.', 'g', 'i', 't'] from rfl]
  have hdata2 : ("https://github.com/" ++ owner ++ "/" ++ repo ++ ".git").data =
      "https://github.com/".data ++ (owner.data ++ '/' :: (repo.data ++ '.' :: ['g', 'i', 't'])) := by
    simp [String.data_append, show ("/" : String).data = ['/'] from rfl,
      show (".git" : String).data = ['.', 'g', 'i', 't'] from rfl]
  have h1 : parse_origin ("git@github.com:" ++ owner ++ "/" ++ repo ++ ".git") =
      some (owner, repo) := by
    rw [parse_origin, hdata1, parse_origin_chars_ssh, htail]
  have h2 : parse_origin ("https://github.com/" ++ owner ++ "/" ++ repo ++ ".git") =
      some (owner, repo) := by
    rw [parse_origin, hdata2, parse_origin_chars_https, htail]
  exact ⟨h1, h2, by rw [api_url_of, h2]⟩

/-- Witness for C3 at the documented example owner and repository. -/
theorem parse_origin_recognized_forms_witness :
    parse_origin "git@github.com:kennethreitz/requests.git" =
      some ("kennethreitz", "requests")
    ∧ parse_origin "https://github.com/kennethreitz/requests.git" =
      some ("kennethreitz", "requests")
    ∧ api_url_of "https://github.com/kennethreitz/requests.git" =
      some "https://api.github.com/repos/kennethreitz/requests/commits?page=1&per_page=1" := by
  have h := parse_origin_recognized_forms "kennethreitz" "requests"
    (by decide) (by decide) (by decide) (by decide)
  exact ⟨h.1, h.2.1, h.2.2⟩

/-! ## Claim C4: rejection of unrecognized origins

The specification states that parsing fails for every URL not of one of
the two recognized forms.  The code disagrees: `re.match` anchors only at
the start, the scheme and separator alternations are independent, and the
dot of `.git` is unescaped, so for example the mixed form
`git@github.com/x/y.git` — which is neither recognized form — parses
successfully.  What does hold is the host restriction: a successful parse
forces the URL to start with `git@github.com` or `https://github.com`
followed by `:` or `/`, so any other host (such as `gitlab.com`) fails. -/

/-- Modelled from the spec: the first recognized origin form,
`git@<host>:<owner>/<repo>.git` for the supported host, with owner and
repository made of word characters. -/
def specSshOrigin (s : String) : Prop :=
  ∃ o r : String, o.data ≠ [] ∧ (∀ c ∈ o.data, isWordChar c = true) ∧
    r.data ≠ [] ∧ (∀ c ∈ r.data, isWordChar c = true) ∧
    s = "git@github.com:" ++ o ++ "/" ++ r ++ ".git"

/-- Modelled from the spec: the second recognized origin form,
`https://<host>/<owner>/<repo>.git` for the supported host, with owner
and repository made of word characters. -/
def specHttpsOrigin (s : String) : Prop :=
  ∃ o r : String, o.data ≠ [] ∧ (∀ c ∈ o.data, isWordChar c = true) ∧
    r.data ≠ [] ∧ (∀ c ∈ r.data, isWordChar c = true) ∧
    s = "https://github.com/" ++ o ++ "/" ++ r ++ ".git"

/-- Counterexample to C4: `git@github.com/x/y.git` is of neither
recognized origin form, yet `_parse_origin` accepts it and returns
`("x", "y")` instead of failing. -/
theorem parse_origin_accepts_unrecognized :
    ¬ specSshOrigin "git@github.com/x/y.git"
    ∧ ¬ specHttpsOrigin "git@github.com/x/y.git"
    ∧ parse_origin "git@github.com/x/y.git" = some ("x", "y") := by
  refine ⟨?_, ?_, by decide⟩
  · rintro ⟨o, r, -, -, -, -, heq⟩
    have hd : ("git@github.com/x/y.git" : String).data =
        "git@github.com:".data ++ (o.data ++ '/' :: (r.data ++ '.' :: ['g', 'i', 't'])) := by
      rw [heq]
      simp [String.data_append, show ("/" : String).data = ['/'] from rfl,
        show (".git" : String).data = ['.', 'g', 'i', 't'] from rfl]
    have hsome := (stripPre_some_iff "git@github.com:".data
      ("git@github.com/x/y.git" : String).data _).mpr hd
    rw [show stripPre "git@github.com:".data ("git@github.com/x/y.git" : String).data =
      none from rfl] at hsome
    exact Option.noConfusion hsome
  · rintro ⟨o, r, -, -, -, -, heq⟩
    have hd : ("git@github.com/x/y.git" : String).data =
        "https://github.com/".data ++ (o.data ++ '/' :: (r.data ++ '.' :: ['g', 'i', 't'])) := by
      rw [heq]
      simp [String.data_append, show ("/" : String).data = ['/'] from rfl,
        show (".git" : String).data = ['.', 'g', 'i', 't'] from rfl]
    have hsome := (stripPre_some_iff "https://github.com/".data
      ("git@github.com/x/y.git" : String).data _).mpr hd
    rw [show stripPre "https://github.com/".data ("git@github.com/x/y.git" : String).data =
      none from rfl] at hsome
    exact Option.noConfusion hsome

/-- C4 (amended): a successful parse forces the origin URL to begin with
the supported host — `git@github.com` or `https://github.com` followed by
`:` or `/` — so parsing (and hence every derived-URL accessor) fails for
every origin whose host differs, such as `https://gitlab.com/x/y.git`;
the converse direction of the claim fails (see the counterexample): the
prefix pattern also accepts some URLs outside the two recognized forms. -/
theorem parse_origin_success_requires_github (s u r : String)
    (h : parse_origin s = some (u, r)) :
    (∃ sep rest, (sep = ':' ∨ sep = '/') ∧
      (s.data = "git@github.com".data ++ sep :: rest ∨
        s.data = "https://github.com".data ++ sep :: rest))
    ∧ parse_origin "https://gitlab.com/x/y.git" = none
    ∧ api_url_of "https://gitlab.com/x/y.git" = none := by
  refine ⟨?_, by decide, by decide⟩
  rw [parse_origin] at h
  cases hp : parse_origin_chars s.data with
  | none => rw [hp] at h; exact Option.noConfusion h
  | some pr =>
    clear h
    rw [parse_origin_chars] at hp
    cases h1 : stripPre "git@".data s.data with
    | some r1 =>
      rw [h1] at hp
      simp only at hp
      cases h2 : stripPre "github.com".data r1 with
      | none => rw [h2] at hp; exact Option.noConfusion hp
      | some r2 =>
        rw [h2] at hp
        cases r2 with
        | nil => exact Option.noConfusion hp
        | cons sep r3 =>
          simp only at hp
          by_cases hsep : sep = ':' ∨ sep = '/'
          · refine ⟨sep, r3, hsep, Or.inl ?_⟩
            have e1 := (stripPre_some_iff "git@".data s.data r1).mp h1
            have e2 := (stripPre_some_iff "github.com".data r1 (sep :: r3)).mp h2
            rw [e1, e2, ← List.append_assoc,
              show ("git@".data ++ "github.com".data : List Char) =
                "git@github.com".data from by decide]
          · rw [if_neg hsep] at hp; exact Option.noConfusion hp
    | none =>
      rw [h1] at hp
      simp only at hp
      cases h1b : stripPre "https://".data s.data with
      | none => rw [h1b] at hp; exact Option.noConfusion hp
      | some r1 =>
        rw [h1b] at hp
        simp only at hp
        cases h2 : stripPre "github.com".data r1 with
        | none => rw [h2] at hp; exact Option.noConfusion hp
        | some r2 =>
          rw [h2] at hp
          cases r2 with
          | nil => exact Option.noConfusion hp
          | cons sep r3 =>
            simp only at hp
            by_cases hsep : sep = ':' ∨ sep = '/'
            · refine ⟨sep, r3, hsep, Or.inr ?_⟩
              have e1 := (stripPre_some_iff "https://".data s.data r1).mp h1b
              have e2 := (stripPre_some_iff "github.com".data r1 (sep :: r3)).mp h2
              rw [e1, e2, ← List.append_assoc,
                show ("https://".data ++ "github.com".data : List Char) =
                  "https://github.com".data from by decide]
            · rw [if_neg hsep] at hp; exact Option.noConfusion hp

/-- Witness for the amended C4, at a successfully parsed origin. -/
theorem parse_origin_success_requires_github_witness :
    parse_origin "git@github.com:vterron/lemon.git" = some ("vterron", "lemon")
    ∧ ((∃ sep rest, (sep = ':' ∨ sep = '/') ∧
        (("git@github.com:vterron/lemon.git" : String).data =
            "git@github.com".data ++ sep :: rest ∨
          ("git@github.com:vterron/lemon.git" : String).data =
            "https://github.com".data ++ sep :: rest))
      ∧ parse_origin "https://gitlab.com/x/y.git" = none
      ∧ api_url_of "https://gitlab.com/x/y.git" = none) :=
  ⟨by decide, parse_origin_success_requires_github "git@github.com:vterron/lemon.git"
    "vterron" "lemon" (by decide)⟩

/-! ## Claim C5: the accepted timestamp language

The specification says the conversion accepts exactly the fixed-width
format `YYYY-MM-DDTHH:MM:SSZ` and rejects every deviating string.  The
code deviates in one direction: the strptime pattern also accepts
unpadded one-digit month, day, hour, minute and second fields, so for
example `2014-1-23T12:18:13Z` is converted rather than rejected.  On the
fixed-width language itself the conversion is exact, and the deviations
the specification lists — fractional seconds, a non-Z offset, a
different date order — are indeed all rejected. -/

/-- Modelled from the spec: a string of exactly the fixed-width shape
`YYYY-MM-DDTHH:MM:SSZ` (four digits, dash, two digits, dash, two digits,
`T`, two digits, colon, two digits, colon, two digits, `Z`). -/
def specFixedIsoShape (s : String) : Bool :=
  match s.data with
  | [y1, y2, y3, y4, a1, m1, m2, a2, d1, d2, a3, h1, h2, a4, n1, n2, a5, e1, e2, a6] =>
    isDig y1 && isDig y2 && isDig y3 && isDig y4 && (a1 == '-') &&
    isDig m1 && isDig m2 && (a2 == '-') && isDig d1 && isDig d2 && (a3 == 'T') &&
    isDig h1 && isDig h2 && (a4 == ':') && isDig n1 && isDig n2 && (a5 == ':') &&
    isDig e1 && isDig e2 && (a6 == 'Z')
  | _ => false

/-- Counterexample to C5: `2014-1-23T12:18:13Z` deviates from the fixed
format (one-digit month), yet the conversion accepts it; the fixed-width
shape itself is checked against the documented example string. -/
theorem parse_github_date_accepts_unpadded :
    specFixedIsoShape "2014-1-23T12:18:13Z" = false
    ∧ parse_github_date "2014-1-23T12:18:13Z" = some 1390479493
    ∧ specFixedIsoShape "2014-10-23T12:18:13Z" = true := by
  refine ⟨by decide, by decide, by decide⟩

/-! Digit rendering, for quantifying over all fixed-format strings. -/

/-- Two-digit zero-padded decimal rendering. -/
def pad2 (n : Nat) : List Char := [digitChar (n / 10), digitChar (n % 10)]

/-- Four-digit zero-padded decimal rendering. -/
def pad4 (n : Nat) : List Char :=
  [digitChar (n / 1000), digitChar (n / 100 % 10), digitChar (n / 10 % 10),
    digitChar (n % 10)]

/-- The fixed-format `YYYY-MM-DDTHH:MM:SSZ` string with the given field
values. -/
def renderIso (y m d h mi s : Nat) : String :=
  ⟨pad4 y ++ '-' :: (pad2 m ++ '-' :: (pad2 d ++ 'T' :: (pad2 h ++ ':' ::
    (pad2 mi ++ ':' :: (pad2 s ++ ['Z'])))))⟩

theorem isDig_digitChar (k : Nat) (h : k ≤ 9) : isDig (digitChar k) = true := by
  interval_cases k <;> decide

theorem digitVal_digitChar (k : Nat) (h : k ≤ 9) : digitVal (digitChar k) = k := by
  interval_cases k <;> decide

theorem parse4_pad4 (y : Nat) (h : y ≤ 9999) (rest : List Char) :
    parse4 (pad4 y ++ rest) = some (y, rest) := by
  have h1 : y / 1000 ≤ 9 := by omega
  have h2 : y / 100 % 10 ≤ 9 := by omega
  have h3 : y / 10 % 10 ≤ 9 := by omega
  have h4 : y % 10 ≤ 9 := by omega
  have hv : 1000 * (y / 1000) + 100 * (y / 100 % 10) + 10 * (y / 10 % 10) + y % 10 = y := by
    omega
  simp [pad4, parse4, isDig_digitChar _ h1, isDig_digitChar _ h2,
    isDig_digitChar _ h3, isDig_digitChar _ h4, digitVal_digitChar _ h1,
    digitVal_digitChar _ h2, digitVal_digitChar _ h3, digitVal_digitChar _ h4, hv]

theorem parse2or1_pad2 (v2 v1 : Nat → Bool) (n : Nat) (hn : n ≤ 99)
    (h2 : v2 n = true) (rest : List Char) :
    parse2or1 v2 v1 (pad2 n ++ rest) = some (n, rest) := by
  have ha : n / 10 ≤ 9 := by omega
  have hb : n % 10 ≤ 9 := by omega
  have hv : 10 * (n / 10) + n % 10 = n := by omega
  simp [pad2, parse2or1, isDig_digitChar _ ha, isDig_digitChar _ hb,
    digitVal_digitChar _ ha, digitVal_digitChar _ hb, hv, h2]

/-- C5 (amended): on every string of the fixed format
`YYYY-MM-DDTHH:MM:SSZ` whose fields are in range and form a valid
calendar date, the conversion succeeds and yields exactly the
`calendar.timegm` epoch value, and the deviations listed by the
specification — fractional seconds, a non-Z offset, a different date
order — are all rejected; the blanket rejection (in the claim) of every
deviating string fails only for unpadded one-digit fields (see the
counterexample). -/
theorem parse_github_date_fixed_format (y m d h mi s : Nat)
    (hy1 : 1 ≤ y) (hy2 : y ≤ 9999) (hm1 : 1 ≤ m) (hm2 : m ≤ 12)
    (hd1 : 1 ≤ d) (hd2 : d ≤ daysInMonth y m) (hh : h ≤ 23)
    (hmi : mi ≤ 59) (hs : s ≤ 61) :
    parse_github_date (renderIso y m d h mi s) = some (timegm y m d h mi s)
    ∧ parse_github_date "2014-10-23T12:18:13.123Z" = none
    ∧ parse_github_date "2014-10-23T12:18:13+00:00" = none
    ∧ parse_github_date "23-10-2014T12:18:13Z" = none := by
  refine ⟨?_, by decide, by decide, by decide⟩
  have hdata : (renderIso y m d h mi s).data =
      pad4 y ++ '-' :: (pad2 m ++ '-' :: (pad2 d ++ 'T' :: (pad2 h ++ ':' ::
        (pad2 mi ++ ':' :: (pad2 s ++ ['Z']))))) := rfl
  have e1 : parse4 (pad4 y ++ '-' :: (pad2 m ++ '-' :: (pad2 d ++ 'T' ::
      (pad2 h ++ ':' :: (pad2 mi ++ ':' :: (pad2 s ++ ['Z'])))))) =
      some (y, '-' :: (pad2 m ++ '-' :: (pad2 d ++ 'T' :: (pad2 h ++ ':' ::
        (pad2 mi ++ ':' :: (pad2 s ++ ['Z'])))))) := parse4_pad4 y hy2 _
  have e3 : parse2or1 (fun v => decide (1 ≤ v ∧ v ≤ 12))
      (fun v => decide (1 ≤ v ∧ v ≤ 9))
      (pad2 m ++ '-' :: (pad2 d ++ 'T' :: (pad2 h ++ ':' ::
        (pad2 mi ++ ':' :: (pad2 s ++ ['Z']))))) =
      some (m, '-' :: (pad2 d ++ 'T' :: (pad2 h ++ ':' ::
        (pad2 mi ++ ':' :: (pad2 s ++ ['Z']))))) :=
    parse2or1_pad2 _ _ m (by omega) (by simp [hm1, hm2]) _
  have e5 : parse2or1 (fun v => decide (1 ≤ v ∧ v ≤ 31))
      (fun v => decide (1 ≤ v ∧ v ≤ 9))
      (pad2 d ++ 'T' :: (pad2 h ++ ':' :: (pad2 mi ++ ':' :: (pad2 s ++ ['Z'])))) =
      some (d, 'T' :: (pad2 h ++ ':' :: (pad2 mi ++ ':' :: (pad2 s ++ ['Z'])))) := by
    have hd31 : d ≤ 31 := by
      have : daysInMonth y m ≤ 31 := by
        simp only [daysInMonth]
        split
        · split <;> omega
        · split <;> omega
      omega
    exact parse2or1_pad2 _ _ d (by omega) (by simp [hd1, hd31]) _
  have e7 : parse2or1 (fun v => decide (v ≤ 23)) (fun _ => true)
      (pad2 h ++ ':' :: (pad2 mi ++ ':' :: (pad2 s ++ ['Z']))) =
      some (h, ':' :: (pad2 mi ++ ':' :: (pad2 s ++ ['Z']))) :=
    parse2or1_pad2 _ _ h (by omega) (by simp [hh]) _
  have e9 : parse2or1 (fun v => decide (v ≤ 59)) (fun _ => true)
      (pad2 mi ++ ':' :: (pad2 s ++ ['Z'])) =
      some (mi, ':' :: (pad2 s ++ ['Z'])) :=
    parse2or1_pad2 _ _ mi (by omega) (by simp [hmi]) _
  have e11 : parse2or1 (fun v => decide (v ≤ 61)) (fun _ => true)
      (pad2 s ++ ['Z']) = some (s, ['Z']) :=
    parse2or1_pad2 _ _ s (by omega) (by simp [hs]) _
  have hcond : ¬(y < 1 ∨ d > daysInMonth y m) := by omega
  unfold parse_github_date
  rw [hdata]
  simp only [e1, e3, e5, e7, e9, e11,
    show expectChar '-' ('-' :: (pad2 m ++ '-' :: (pad2 d ++ 'T' :: (pad2 h ++ ':' ::
      (pad2 mi ++ ':' :: (pad2 s ++ ['Z'])))))) =
      some (pad2 m ++ '-' :: (pad2 d ++ 'T' :: (pad2 h ++ ':' ::
        (pad2 mi ++ ':' :: (pad2 s ++ ['Z']))))) from rfl,
    show expectChar '-' ('-' :: (pad2 d ++ 'T' :: (pad2 h ++ ':' ::
      (pad2 mi ++ ':' :: (pad2 s ++ ['Z']))))) =
      some (pad2 d ++ 'T' :: (pad2 h ++ ':' :: (pad2 mi ++ ':' ::
        (pad2 s ++ ['Z'])))) from rfl,
    show expectChar 'T' ('T' :: (pad2 h ++ ':' :: (pad2 mi ++ ':' ::
      (pad2 s ++ ['Z'])))) =
      some (pad2 h ++ ':' :: (pad2 mi ++ ':' :: (pad2 s ++ ['Z']))) from rfl,
    show expectChar ':' (':' :: (pad2 mi ++ ':' :: (pad2 s ++ ['Z']))) =
      some (pad2 mi ++ ':' :: (pad2 s ++ ['Z'])) from rfl,
    show expectChar ':' (':' :: (pad2 s ++ ['Z'])) = some (pad2 s ++ ['Z']) from rfl,
    show expectChar 'Z' ['Z'] = some ([] : List Char) from rfl,
    if_neg hcond]
  simp

/-- Witness for the amended C5 at the documented example timestamp. -/
theorem parse_github_date_fixed_format_witness :
    renderIso 2014 10 23 12 18 13 = "2014-10-23T12:18:13Z"
    ∧ timegm 2014 10 23 12 18 13 = 1414066693
    ∧ parse_github_date (renderIso 2014 10 23 12 18 13) =
        some (timegm 2014 10 23 12 18 13) :=
  ⟨by decide, by decide,
    (parse_github_date_fixed_format 2014 10 23 12 18 13 (by decide) (by decide)
      (by decide) (by decide) (by decide) (by decide) (by decide) (by decide)
      (by decide)).1⟩

/-! ## Claim C1: end-to-end cache-miss scenario -/

/-- C1: on a cache miss (stale or absent cache file), with the remote
API answering a commit list whose first entry carries the given sha and
date `2014-10-23T12:18:13Z`, and `git rev-parse --short` resolving that
sha to `51277fc`, `get_last_github_commit` returns the pair
`("51277fc", 1414066693)` and has written exactly that pair to the cache
file before returning (the write is the last effect of the run). -/
theorem get_last_github_commit_miss_path (env : Env) (repoPath : String)
    (max_hours : Int) (s : St) (origin url fullHash : String)
    (restEntries : List JSON)
    (h1 : up_to_date s.files env.now (cache_path repoPath) max_hours = false)
    (h2 : (env.runner repoPath originArgs).map stripOut = some origin)
    (h3 : api_url_of origin = some url)
    (h4 : env.http url = some (.arr (.obj [("sha", .str fullHash),
      ("commit", .obj [("author",
        .obj [("date", .str "2014-10-23T12:18:13Z")])])] :: restEntries)))
    (h5 : (env.runner repoPath ["git", "rev-parse", "--short", fullHash]).map
      stripOut = some "51277fc") :
    get_last_github_commit env repoPath max_hours s =
      (.ok (.fetched "51277fc" 1414066693),
        cache_set s env.now (cache_path repoPath)
          (.arr [.str "51277fc", .num 1414066693]),
        [.procRun originArgs, .httpGet url,
          .procRun ["git", "rev-parse", "--short", fullHash],
          .fileWrite (cache_path repoPath)
            (.arr [.str "51277fc", .num 1414066693])]) := by
  have hext : extract_commit (.arr (.obj [("sha", .str fullHash),
      ("commit", .obj [("author",
        .obj [("date", .str "2014-10-23T12:18:13Z")])])] :: restEntries)) =
      some (fullHash, "2014-10-23T12:18:13Z") := rfl
  have hdate : parse_github_date "2014-10-23T12:18:13Z" = some 1414066693 := by
    decide
  simp only [get_last_github_commit, h1, Bool.false_eq_true, if_false,
    check_output_eq, h2, h3, h4, hext, hdate, h5]

/-- The full hash served by the mocked API in the end-to-end scenario. -/
def wFullHash : String := "51277fcabc"

/-- The `git rev-parse --short` invocation for that hash. -/
def wRpArgs : List String := ["git", "rev-parse", "--short", "51277fcabc"]

/-- The API URL derived from the mocked origin. -/
def wUrl : String :=
  "https://api.github.com/repos/vterron/lemon/commits?page=1&per_page=1"

/-- The mocked API response body. -/
def wBody : JSON :=
  .arr [.obj [("sha", .str "51277fcabc"),
    ("commit", .obj [("author", .obj [("date", .str "2014-10-23T12:18:13Z")])])]]

/-- The mocked environment for the end-to-end cache-miss scenario: the
origin is configured, the API serves one commit, `rev-parse` shortens the
hash, and every other interaction fails. -/
def wEnvMiss : Env :=
  ⟨100,
    fun _ args =>
      if args = originArgs then some "git@github.com:vterron/lemon.git"
      else if args = wRpArgs then some "51277fc"
      else none,
    fun u => if u = wUrl then some wBody else none⟩

/-- A repository state with no cache file at all. -/
def wStMiss : St := ⟨"/", fun _ => none⟩

/-- Witness for C1: the concrete end-to-end scenario of the
specification, with an absent cache file. -/
theorem get_last_github_commit_miss_path_witness :
    get_last_github_commit wEnvMiss "/repo" 1 wStMiss =
      (.ok (.fetched "51277fc" 1414066693),
        cache_set wStMiss 100 (cache_path "/repo")
          (.arr [.str "51277fc", .num 1414066693]),
        [.procRun originArgs, .httpGet wUrl, .procRun wRpArgs,
          .fileWrite (cache_path "/repo")
            (.arr [.str "51277fc", .num 1414066693])]) :=
  get_last_github_commit_miss_path wEnvMiss "/repo" 1 wStMiss
    "git@github.com:vterron/lemon.git" wUrl wFullHash [] (by decide) (by decide)
    (by decide) rfl (by decide)

/-! ## Claim C10: the miss-path timestamp is exact calendar arithmetic -/

theorem digitVal_le_of_isDig (c : Char) (h : isDig c = true) : digitVal c ≤ 9 := by
  simp only [isDig, decide_eq_true_eq] at h
  simp only [digitVal]
  omega

/-- A value accepted by a strptime field satisfies its two-digit predicate
or is a single digit accepted by the one-digit predicate. -/
theorem parse2or1_bounds (v2 v1 : Nat → Bool) (cs : List Char) (v : Nat)
    (rest : List Char) (h : parse2or1 v2 v1 cs = some (v, rest)) :
    v2 v = true ∨ (v1 v = true ∧ v ≤ 9) := by
  cases cs with
  | nil => simp [parse2or1] at h
  | cons c1 cs1 =>
    cases cs1 with
    | nil =>
      simp only [parse2or1] at h
      split at h
      · rename_i hcond
        simp only [Option.some.injEq, Prod.mk.injEq] at h
        obtain ⟨hv, -⟩ := h
        subst hv
        rw [Bool.and_eq_true] at hcond
        exact Or.inr ⟨hcond.2, digitVal_le_of_isDig c1 hcond.1⟩
      · exact Option.noConfusion h
    | cons c2 rest2 =>
      simp only [parse2or1] at h
      split at h
      · rename_i hcond
        simp only [Option.some.injEq, Prod.mk.injEq] at h
        obtain ⟨hv, -⟩ := h
        subst hv
        rw [Bool.and_eq_true] at hcond
        exact Or.inl hcond.2
      · split at h
        · rename_i hcond
          simp only [Option.some.injEq, Prod.mk.injEq] at h
          obtain ⟨hv, -⟩ := h
          subst hv
          rw [Bool.and_eq_true] at hcond
          exact Or.inr ⟨hcond.2, digitVal_le_of_isDig c1 hcond.1⟩
        · exact Option.noConfusion h

/-- The `%Y` field is at most 9999. -/
theorem parse4_le (cs : List Char) (y : Nat) (rest : List Char)
    (h : parse4 cs = some (y, rest)) : y ≤ 9999 := by
  cases cs with
  | nil => simp [parse4] at h
  | cons c1 cs1 =>
  cases cs1 with
  | nil => simp [parse4] at h
  | cons c2 cs2 =>
  cases cs2 with
  | nil => simp [parse4] at h
  | cons c3 cs3 =>
  cases cs3 with
  | nil => simp [parse4] at h
  | cons c4 rest4 =>
    simp only [parse4] at h
    split at h
    · rename_i hcond
      simp only [Option.some.injEq, Prod.mk.injEq] at h
      obtain ⟨hv, -⟩ := h
      subst hv
      simp only [Bool.and_eq_true] at hcond
      have b1 := digitVal_le_of_isDig c1 hcond.1.1.1
      have b2 := digitVal_le_of_isDig c2 hcond.1.1.2
      have b3 := digitVal_le_of_isDig c3 hcond.1.2
      have b4 := digitVal_le_of_isDig c4 hcond.2
      omega
    · exact Option.noConfusion h

/-- A successful timestamp conversion comes from in-range fields of a
valid calendar date, and its value is exactly the `timegm` calendar
arithmetic on those fields. -/
theorem parse_github_date_fields (str : String) (t : Int)
    (h : parse_github_date str = some t) :
    ∃ y m d hh mm ss, 1 ≤ y ∧ y ≤ 9999 ∧ 1 ≤ m ∧ m ≤ 12 ∧ 1 ≤ d ∧
      d ≤ daysInMonth y m ∧ hh ≤ 23 ∧ mm ≤ 59 ∧ ss ≤ 61 ∧
      t = timegm y m d hh mm ss := by
  unfold parse_github_date at h
  split at h
  · exact Option.noConfusion h
  rename_i y r1 hp4
  split at h
  · exact Option.noConfusion h
  split at h
  · exact Option.noConfusion h
  rename_i m r3 hpm
  split at h
  · exact Option.noConfusion h
  split at h
  · exact Option.noConfusion h
  rename_i d r5 hpd
  split at h
  · exact Option.noConfusion h
  split at h
  · exact Option.noConfusion h
  rename_i hh r7 hph
  split at h
  · exact Option.noConfusion h
  split at h
  · exact Option.noConfusion h
  rename_i mm r9 hpmi
  split at h
  · exact Option.noConfusion h
  split at h
  · exact Option.noConfusion h
  rename_i ss r11 hps
  split at h
  · exact Option.noConfusion h
  split at h
  · exact Option.noConfusion h
  split at h
  · exact Option.noConfusion h
  rename_i hlen hcond
  injection h with hval
  have hy2 := parse4_le str.data y r1 hp4
  have hmb := parse2or1_bounds _ _ _ m r3 hpm
  have hdb := parse2or1_bounds _ _ _ d r5 hpd
  have hhb := parse2or1_bounds _ _ _ hh r7 hph
  have hmib := parse2or1_bounds _ _ _ mm r9 hpmi
  have hsb := parse2or1_bounds _ _ _ ss r11 hps
  simp only [decide_eq_true_eq] at hmb hdb hhb hmib hsb
  refine ⟨y, m, d, hh, mm, ss, by omega, hy2, by omega, by omega, by omega,
    by omega, by omega, by omega, by omega, hval.symm⟩

/-- C10: whenever `get_last_github_commit` takes the cache-miss path and
succeeds (returns a freshly fetched pair), the timestamp it returns is
the exact integer `calendar.timegm` calendar arithmetic on the in-range
fields parsed from the ISO-8601 date — no fractional part exists — and
the very same integer is what the cache file now holds next to the short
hash. -/
theorem get_last_github_commit_timestamp_exact (env : Env) (repoPath : String)
    (max_hours : Int) (s : St) (shortHash : String) (t : Int) (st2 : St)
    (ev : List Event)
    (h : get_last_github_commit env repoPath max_hours s =
      (.ok (.fetched shortHash t), st2, ev)) :
    (∃ y m d hh mm ss, 1 ≤ y ∧ y ≤ 9999 ∧ 1 ≤ m ∧ m ≤ 12 ∧ 1 ≤ d ∧
      d ≤ daysInMonth y m ∧ hh ≤ 23 ∧ mm ≤ 59 ∧ ss ≤ 61 ∧
      t = timegm y m d hh mm ss)
    ∧ st2.files (cache_path repoPath) =
      some ⟨env.now, .arr [.str shortHash, .num t]⟩ := by
  unfold get_last_github_commit at h
  simp only [check_output_eq] at h
  split at h
  · -- fresh-cache branch: the result is a cached value, not a fetched pair
    split at h <;> simp at h
  · -- miss branch
    split at h
    · simp at h
    split at h
    · simp at h
    split at h
    · simp at h
    split at h
    · simp at h
    rename_i hashVal dateStr hext
    split at h
    · simp at h
    rename_i date0 hdate
    split at h
    · simp at h
    simp only [Prod.mk.injEq, Except.ok.injEq, GitHubResult.fetched.injEq] at h
    obtain ⟨⟨hsh, hdt⟩, hst, -⟩ := h
    subst hsh
    subst hdt
    constructor
    · exact parse_github_date_fields dateStr _ hdate
    · rw [← hst]
      simp [cache_set]

/-- Witness for C10 at the concrete end-to-end scenario: the returned
timestamp 1414066693 is the calendar arithmetic of in-range fields, and
the cache file holds it. -/
theorem get_last_github_commit_timestamp_exact_witness :
    (∃ y m d hh mm ss, 1 ≤ y ∧ y ≤ 9999 ∧ 1 ≤ m ∧ m ≤ 12 ∧ 1 ≤ d ∧
      d ≤ daysInMonth y m ∧ hh ≤ 23 ∧ mm ≤ 59 ∧ ss ≤ 61 ∧
      (1414066693 : Int) = timegm y m d hh mm ss)
    ∧ (cache_set wStMiss 100 (cache_path "/repo")
        (.arr [.str "51277fc", .num 1414066693])).files (cache_path "/repo") =
      some ⟨100, .arr [.str "51277fc", .num 1414066693]⟩ :=
  get_last_github_commit_timestamp_exact wEnvMiss "/repo" 1 wStMiss "51277fc"
    1414066693
    (cache_set wStMiss 100 (cache_path "/repo")
      (.arr [.str "51277fc", .num 1414066693]))
    [.procRun originArgs, .httpGet wUrl, .procRun wRpArgs,
      .fileWrite (cache_path "/repo") (.arr [.str "51277fc", .num 1414066693])]
    rfl
